import Mathlib

/-!
Shallow embedding of the core of `vocdoni/farcaster-go` (package `neynar`,
with the `hub` data types it uses), together with theorems settling the
behavioural claims about it.

Conventions of the embedding:
* Go byte slices (`[]byte`) are `List Nat`; Go strings are Lean `String`.
* Go's `map[uint64]*hub.APIMessage` is an association list
  `List (Nat × APIMessage)` whose list order stands for the iteration
  order the Go runtime happens to choose for the map (Go specifies no
  iteration order, so any list order of the stored pairs is realizable).
* Fallible Go functions returning `(T, error)` become `Except String T`,
  the `String` being the formatted error message.
* The network is represented by an environment: a stream
  `Nat → AttemptResult` giving, for each attempt index, the outcome the
  transport would produce for that attempt.
-/

namespace Neynar

/-- Constant from `neynar.go`: capacity of the request semaphore. -/
def maxConcurrentRequests : Nat := 2

/-- Constant from `neynar.go`: maximum number of attempts of `request`. -/
def maxRetries : Nat := 12

/-- Constant from the `hub` package: maximum byte size of a cast. -/
def MaxCastBytes : Nat := 350

/-- Constant from `neynar.go`: webhook type of a newly created cast. -/
def neynarCastCreatedType : String := "cast.created"

/-- Constant from `neynar.go`: object type of a cast payload. -/
def neynarCastType : String := "cast"

/-- Embeds `hub.ParentAPIMessage`: reference to the parent cast. -/
structure ParentAPIMessage where
  FID : Nat
  Hash : String
deriving DecidableEq, Repr

/-- Embeds `hub.APIMessage`: a message in the farcaster API.  The Go field
`Embeds []string` left `nil` is rendered as `[]`. -/
structure APIMessage where
  IsMention : Bool
  Content : String
  Author : Nat
  Hash : String
  Parent : Option ParentAPIMessage
  Embeds : List String
deriving DecidableEq, Repr

/-- Author block of a webhook cast payload (`data.Author.Fid`). -/
structure castAuthor where
  Fid : Nat
deriving DecidableEq, Repr

/-- Parent-author block of a webhook cast payload (`data.ParentAuthor.FID`).
In Go this is a nullable pointer; here the whole field is an `Option`. -/
structure castParentAuthor where
  FID : Nat
deriving DecidableEq, Repr

/-- One embed of a webhook cast payload (`embed.Url`). -/
structure castEmbedData where
  Url : String
deriving DecidableEq, Repr

/-- Embeds the decoded `castWebhookData` JSON struct, with exactly the
fields `parseCastData` and `WebhookMentionsHandler` read. -/
structure castWebhookData where
  Object : String
  Text : String
  Hash : String
  Author : castAuthor
  ParentAuthor : Option castParentAuthor
  ParentHash : String
  Embeds : List castEmbedData
  Timestamp : String
deriving DecidableEq, Repr

/-- Embeds the decoded `castsWebhookRequest` envelope.  The Go field named
`Type` is rendered as `reqType` (`Type` is reserved in Lean). -/
structure castsWebhookRequest where
  reqType : String
  Data : castWebhookData
deriving DecidableEq, Repr

/-- Boolean prefix test on character lists (structural recursion, so the
kernel can evaluate it on literals). -/
def listPrefixOf : List Char → List Char → Bool
  | [], _ => true
  | _ :: _, [] => false
  | a :: as, b :: bs => a == b && listPrefixOf as bs

/-- Go's `strings.HasPrefix s pre`. -/
def hasPrefixGo (s pre : String) : Bool := listPrefixOf pre.data s.data

/-- Go's `unicode.IsSpace` restricted to the ASCII space characters it
recognises (the Latin-1 additions U+0085 and U+00A0 are included too). -/
def goIsSpace (c : Char) : Bool :=
  c == ' ' || c == '\t' || c == '\n' || c == '\r' ||
  c == '\x0b' || c == '\x0c' || c == '\x85' || c == '\xa0'

/-- Drop leading characters satisfying `p` (structural recursion). -/
def dropWhileList (p : Char → Bool) : List Char → List Char
  | [] => []
  | c :: cs => if p c then dropWhileList p cs else c :: cs

/-- Go's `strings.TrimSpace`: strip leading and trailing whitespace. -/
def goTrimSpace (s : String) : String :=
  ⟨dropWhileList goIsSpace (dropWhileList goIsSpace s.data.reverse).reverse⟩

/-- Go's `strings.TrimPrefix s pre`: drop `pre` from the front of `s` when
it is a prefix, otherwise return `s` unchanged. -/
def trimPrefixGo (s pre : String) : String :=
  if listPrefixOf pre.data s.data then ⟨s.data.drop pre.data.length⟩ else s

/-- Go's `len([]byte(s))`: the UTF-8 byte length of a string. -/
def goUtf8Len (s : String) : Nat := (s.data.map Char.utf8Size).sum

/-- Embeds `(*NeynarAPI).parseCastData` from `neynar.go` lines 515-550,
with the client's `n.username` passed explicitly.  Note that the source
computes `isMention := !strings.HasPrefix(data.Text, mentionNeedle)` (the
negation is as written in the source) and then trims only when that flag
is set.  Go's `strings.TrimSpace` is rendered with `String.trim`. -/
def parseCastData (username : String) (data : castWebhookData) :
    Except String APIMessage :=
  if data.Object ≠ neynarCastType then
    Except.error ("invalid object type: " ++ data.Object ++ " (" ++
      neynarCastType ++ " expected)")
  else
    let mentionNeedle := "@" ++ username
    let isMention := !(hasPrefixGo data.Text mentionNeedle)
    let text := if isMention then
      goTrimSpace (trimPrefixGo data.Text mentionNeedle)
      else data.Text
    Except.ok
      { IsMention := isMention
        Content := text
        Author := data.Author.Fid
        Hash := data.Hash
        Parent := data.ParentAuthor.map fun pa =>
          { FID := pa.FID, Hash := data.ParentHash }
        Embeds := data.Embeds.map castEmbedData.Url }

/-- The mention queue: the `newCasts` map of `NeynarAPI`, as an
association list in iteration order (keys are unique). -/
abbrev MentionQueue := List (Nat × APIMessage)

/-- Embeds the map assignment `n.newCasts[ts] = message` performed by
`WebhookMentionsHandler`: overwrite the entry at key `ts` when present,
insert the pair otherwise. -/
def recordMention (q : MentionQueue) (ts : Nat) (msg : APIMessage) :
    MentionQueue :=
  if q.any fun p => p.1 == ts then
    q.map fun p => if p.1 == ts then (ts, msg) else p
  else q ++ [(ts, msg)]

/-- Embeds the loop of `(*NeynarAPI).LastMentions` (`neynar.go` lines
111-119): fold over the queue in iteration order, appending every message
whose timestamp strictly exceeds `timestamp` and recording that entry's
timestamp in `lastTimestamp`. -/
def lastMentionsCore (q : MentionQueue) (timestamp : Nat) :
    List APIMessage × Nat :=
  q.foldl
    (fun acc p => if timestamp < p.1 then (acc.1 ++ [p.2], p.1) else acc)
    ([], timestamp)

/-- Embeds `(*NeynarAPI).LastMentions`: guard on an unset user, run the
collection loop, clear the queue.  The returned triple is
(messages, lastTimestamp, queue after the call). -/
def LastMentions (fid : Nat) (q : MentionQueue) (timestamp : Nat) :
    Except String (List APIMessage × Nat × MentionQueue) :=
  if fid = 0 then Except.error "farcaster user not set"
  else
    let res := lastMentionsCore q timestamp
    Except.ok (res.1, res.2, [])

/-- Embeds `(*NeynarAPI).WebhookMentionsHandler`.  JSON decoding of the
raw body and `time.Parse` of the timestamp string are abstracted as the
parameters `decode` (the result of `json.Unmarshal`, `none` on failure)
and `parseTime` (the Unix seconds of the parsed time, `none` on failure;
`uint64(t.Unix())` is rendered as `Int.emod` into `[0, 2^64)`).  The
returned queue is the `newCasts` map after the call. -/
def WebhookMentionsHandler (decode : List Nat → Option castsWebhookRequest)
    (parseTime : String → Option Int) (username : String)
    (q : MentionQueue) (body : List Nat) : Except String MentionQueue :=
  match decode body with
  | none => Except.error "error unmarshalling request body"
  | some req =>
    if req.reqType ≠ neynarCastCreatedType then Except.ok q
    else
      match parseCastData username req.Data with
      | Except.error e => Except.error ("error parsing cast data: " ++ e)
      | Except.ok message =>
        match parseTime req.Data.Timestamp with
        | none => Except.error "error parsing timestamp"
        | some t =>
          let notificationTimestamp := (Int.emod t (2 ^ 64)).toNat
          Except.ok (recordMention q notificationTimestamp message)

/-- Embeds `verifyRequest` from `neynar.go` lines 590-598.  The
hex-encoded HMAC-SHA512 of the body under the secret is abstracted as the
parameter `hmacSha512Hex`; the source compares the header value against
it for equality and, notably, always returns a `nil` error (rendered
`none`). -/
def verifyRequest (hmacSha512Hex : String → List Nat → String)
    (secret signature : String) (body : List Nat) : Bool × Option String :=
  (signature == hmacSha512Hex secret body, none)

/-- Observable outcome of one run of the webhook HTTP handler: whether the
attached payload handler was invoked, the HTTP status of the response
(the first status written), and the response body text. -/
structure WebhookHttpResult where
  handlerCalled : Bool
  status : Nat
  responseBody : String
deriving DecidableEq, Repr

/-- Embeds the closure returned by `WebhookHttpHandler` (`neynar.go` lines
437-480), after the body has been read successfully.  The attached payload
handler is `handler` (`none` models a `nil` error).  The source only
enters its rejection branch when `verifyRequest` reports a non-`nil`
error; inside that branch it writes 400, and only returns early without
calling `handler` when additionally the signature did not verify
(otherwise control falls through to the handler call). -/
def WebhookHttpHandler (hmacSha512Hex : String → List Nat → String)
    (webhookSecret : String) (handler : List Nat → Option String)
    (signature : String) (data : List Nat) : WebhookHttpResult :=
  match verifyRequest hmacSha512Hex webhookSecret signature data with
  | (verified, some _) =>
    if !verified then
      { handlerCalled := false, status := 400
        responseBody := "error verifying request" ++ "request not verified" }
    else
      match handler data with
      | some _ =>
        { handlerCalled := true, status := 400
          responseBody := "error verifying request" ++ "error handling webhook" }
      | none =>
        { handlerCalled := true, status := 400
          responseBody := "error verifying request" ++ "ok" }
  | (_, none) =>
    match handler data with
    | some _ =>
      { handlerCalled := true, status := 500
        responseBody := "error handling webhook" }
    | none =>
      { handlerCalled := true, status := 200, responseBody := "ok" }

/-- Environment-provided outcome of one attempt of `request`: either the
transport fails (`http.DefaultClient.Do` returns an error) or a response
arrives with a numeric status code, a status line (Go's `res.Status`,
e.g. "404 Not Found") and a body. -/
inductive AttemptResult where
  | transportError (msg : String)
  | response (status : Nat) (statusLine : String) (body : List Nat)
deriving DecidableEq, Repr

/-- Embeds the `for attempt := 0; attempt < maxRetries; attempt++` loop of
`(*NeynarAPI).request` (`neynar.go` lines 552-586).  `attempt` is the
current attempt index, `remaining` the attempts the loop may still run
(`maxRetries - attempt`); the backoff sleep has no observable effect here.
Returns the result together with the number of attempts performed. -/
def requestLoop (responses : Nat → AttemptResult) :
    Nat → Nat → Except String (List Nat) × Nat
  | _, 0 => (Except.error "error downloading json: exceeded retry limit", 0)
  | attempt, r + 1 =>
    match responses attempt with
    | AttemptResult.transportError e =>
      (Except.error ("error downloading json: " ++ e), 1)
    | AttemptResult.response status statusLine body =>
      if status = 429 then
        let rest := requestLoop responses (attempt + 1) r
        (rest.1, rest.2 + 1)
      else if status ≠ 200 then
        (Except.error ("error downloading json: " ++ statusLine), 1)
      else
        (Except.ok body, 1)

/-- Embeds `(*NeynarAPI).request`: run the attempt loop from attempt 0
with a budget of `maxRetries` attempts. -/
def request (responses : Nat → AttemptResult) :
    Except String (List Nat) × Nat :=
  requestLoop responses 0 maxRetries

/-- Embeds the `castPostRequest` JSON body that `Publish` and `Reply`
build for the cast endpoint (an absent parent is the empty string). -/
structure castPostRequest where
  Signer : String
  Text : String
  Parent : String
  Embeds : List String
deriving DecidableEq, Repr

/-- Embeds `(*NeynarAPI).Publish` up to its network call: the guards run
in source order, and a returned `castPostRequest` is the body that would
be sent to the cast endpoint (`json.Marshal` of this struct cannot
fail). -/
def Publish (fid : Nat) (signerUUID : String) (content : String)
    (embeds : List String) : Except String castPostRequest :=
  if fid = 0 then Except.error "farcaster user not set"
  else if MaxCastBytes < goUtf8Len content then
    Except.error "content is too long"
  else
    Except.ok
      { Signer := signerUUID, Text := content, Parent := "", Embeds := embeds }

/-- Embeds `(*NeynarAPI).Reply` up to its network call; `targetHash` is
`targetMsg.Hash`. -/
def Reply (fid : Nat) (signerUUID : String) (targetHash : String)
    (content : String) (embeds : List String) :
    Except String castPostRequest :=
  if fid = 0 then Except.error "farcaster user not set"
  else if MaxCastBytes < goUtf8Len content then
    Except.error "content is too long"
  else
    Except.ok
      { Signer := signerUUID, Text := content, Parent := targetHash
        Embeds := embeds }

/-- Phase of one goroutine running the body of `request`, relative to the
semaphore `reqSemaphore`: before the send on the semaphore channel, inside
the `http.DefaultClient.Do` call (holding one permit — the source releases
the permit on the line right after `Do` returns, before the status check
and before any backoff sleep), sleeping in the 429 backoff (permit already
released), or returned. -/
inductive ThreadPhase where
  | beforeAcquire
  | inCall
  | backoff
  | finished
deriving DecidableEq, Repr

/-- Number of threads currently inside the network call (each holds one
semaphore permit, so this also counts the held permits). -/
def inFlight (s : List ThreadPhase) : Nat :=
  s.countP fun p => p = ThreadPhase.inCall

/-- Interleaving semantics of the semaphore discipline of `request`: a
send on the capacity-`maxConcurrentRequests` channel succeeds only while
fewer than `maxConcurrentRequests` permits are held; the receive right
after `Do` releases the permit, after which the goroutine either returns
(success, transport error, non-200 status, or retry budget exhausted) or
sleeps and loops back for another attempt. -/
inductive SemStep : List ThreadPhase → List ThreadPhase → Prop where
  | acquire (l r : List ThreadPhase) :
      inFlight (l ++ ThreadPhase.beforeAcquire :: r) < maxConcurrentRequests →
      SemStep (l ++ ThreadPhase.beforeAcquire :: r)
        (l ++ ThreadPhase.inCall :: r)
  | finish (l r : List ThreadPhase) :
      SemStep (l ++ ThreadPhase.inCall :: r) (l ++ ThreadPhase.finished :: r)
  | throttle (l r : List ThreadPhase) :
      SemStep (l ++ ThreadPhase.inCall :: r) (l ++ ThreadPhase.backoff :: r)
  | wake (l r : List ThreadPhase) :
      SemStep (l ++ ThreadPhase.backoff :: r)
        (l ++ ThreadPhase.beforeAcquire :: r)

/-- Bool discriminator for a throttling attempt outcome (HTTP 429). -/
def isThrottle : AttemptResult → Bool
  | AttemptResult.transportError _ => false
  | AttemptResult.response status _ _ => status == 429

/-- A concrete mention event, used in concrete scenarios. -/
def msgA : APIMessage :=
  { IsMention := true, Content := "first", Author := 1, Hash := "0xa"
    Parent := none, Embeds := [] }

/-- Another concrete mention event, distinct from `msgA`. -/
def msgB : APIMessage :=
  { IsMention := true, Content := "second", Author := 2, Hash := "0xb"
    Parent := none, Embeds := [] }

/-- Last element of a list, or the default when the list is empty. -/
def lastOrDefault : List Nat → Nat → Nat
  | [], d => d
  | x :: xs, _ => lastOrDefault xs x

/-- The collection loop of `LastMentions`, characterized in closed form:
the messages are those of the qualifying entries in iteration order, and
the final `lastTimestamp` is the timestamp of the LAST qualifying entry
in iteration order (the accumulator default when none qualifies). -/
theorem lastMentionsCore_foldl (wm : Nat) (q : MentionQueue) :
    ∀ (acc : List APIMessage) (t : Nat),
      List.foldl
          (fun acc p => if wm < p.1 then (acc.1 ++ [p.2], p.1) else acc)
          (acc, t) q =
        (acc ++ (q.filter fun p => wm < p.1).map Prod.snd,
         lastOrDefault ((q.filter fun p => wm < p.1).map Prod.fst) t) := by
  induction q with
  | nil => intro acc t; simp [lastOrDefault]
  | cons hd tl ih =>
    intro acc t
    obtain ⟨ts, msg⟩ := hd
    by_cases h : wm < ts
    · simp [List.filter_cons, h, ih, lastOrDefault]
    · simp [List.filter_cons, h, ih]

/-- Claim C1: the spec says `parseCastData` marks a cast as a mention
exactly when its text starts with `"@" + botUsername`, stripping that
prefix; the source computes the negation of the prefix test.  Evaluating
the embedded code: text `"@bot hello"` with bot username `"bot"` yields
`IsMention = false` with the content unchanged, and text `"random text"`
yields `IsMention = true`. -/
theorem claim1_mention_flag_inverted :
    parseCastData "bot"
        { Object := "cast", Text := "@bot hello", Hash := "0xh"
          Author := { Fid := 7 }, ParentAuthor := none, ParentHash := ""
          Embeds := [], Timestamp := "t" } =
      Except.ok
        { IsMention := false, Content := "@bot hello", Author := 7
          Hash := "0xh", Parent := none, Embeds := [] } ∧
    parseCastData "bot"
        { Object := "cast", Text := "random text", Hash := "0xh"
          Author := { Fid := 7 }, ParentAuthor := none, ParentHash := ""
          Embeds := [], Timestamp := "t" } =
      Except.ok
        { IsMention := true, Content := "random text", Author := 7
          Hash := "0xh", Parent := none, Embeds := [] } :=
  ⟨rfl, rfl⟩

/-- Claim C2, counterexample to the claim as stated: with the queue
holding timestamps 10 and 5 (both exceeding the watermark 0) and the
runtime iterating the entry with timestamp 10 first, the drain returns
both events but a new watermark of 5, which is not the maximum timestamp
(10) among the returned events. -/
theorem claim2_watermark_below_returned_timestamp :
    LastMentions 1 [(10, msgB), (5, msgA)] 0 =
      Except.ok ([msgB, msgA], 5, []) ∧
    (10, msgB) ∈ ([(10, msgB), (5, msgA)] : MentionQueue) ∧ (5 : Nat) < 10 :=
  ⟨rfl, by decide, by decide⟩

/-- Claim C2, amended: the drain returns exactly the stored events whose
timestamp strictly exceeds the watermark (in map iteration order), and the
new watermark is the timestamp of the last qualifying entry in iteration
order (the input watermark when none qualifies) — which equals the
maximum only when at most one event qualifies or the order cooperates.
In particular Record(5,e1), Record(10,e2), DrainSince(5) yields exactly
e2 with new watermark 10 and clears the queue, and a subsequent
DrainSince(10) on the cleared queue yields nothing with watermark 10. -/
theorem claim2_drain_characterization (q : MentionQueue) (wm : Nat)
    (e1 e2 : APIMessage) :
    lastMentionsCore q wm =
      ((q.filter fun p => wm < p.1).map Prod.snd,
       lastOrDefault ((q.filter fun p => wm < p.1).map Prod.fst) wm) ∧
    LastMentions 1 (recordMention (recordMention [] 5 e1) 10 e2) 5 =
      Except.ok ([e2], 10, []) ∧
    LastMentions 1 [] 10 = Except.ok ([], 10, []) := by
  refine ⟨?_, rfl, rfl⟩
  simpa [lastMentionsCore] using lastMentionsCore_foldl wm q [] wm

/-- Constant stand-in for the hex-encoded HMAC-SHA512, used to exhibit a
request whose signature header does not match the expected digest. -/
def constHmac : String → List Nat → String := fun _ _ => "aa"

/-- Claim C3: the spec says a webhook whose signature header differs from
the hex HMAC-SHA512 of the body is rejected without invoking the payload
handler.  In the source `verifyRequest` always returns a `nil` error, so
the rejection branch of `WebhookHttpHandler` is dead code: evaluating the
embedded handler at a signature (`"bad"`) different from the digest
(`"aa"`) shows the payload handler IS invoked and the response is
200 `"ok"`; with a failing payload handler it is still invoked. -/
theorem claim3_handler_called_despite_bad_signature :
    ("bad" : String) ≠ constHmac "sec" [1, 2, 3] ∧
    WebhookHttpHandler constHmac "sec" (fun _ => none) "bad" [1, 2, 3] =
      { handlerCalled := true, status := 200, responseBody := "ok" } ∧
    WebhookHttpHandler constHmac "sec" (fun _ => some "boom") "bad" [1, 2, 3] =
      { handlerCalled := true, status := 500
        responseBody := "error handling webhook" } :=
  ⟨by decide, rfl, rfl⟩

/-- Claim C8, counterexample to the claim as stated for timestamp
`t1 = 0`: after Record(0, e1) and Record(0, e2), DrainSince(0) returns no
event at all (only strictly positive timestamps qualify against watermark
0), not "only e2". -/
theorem claim8_zero_bucket_not_drained :
    LastMentions 1 (recordMention (recordMention [] 0 msgA) 0 msgB) 0 =
      Except.ok ([], 0, []) ∧
    ([] : List APIMessage) ≠ [msgB] :=
  ⟨rfl, by decide⟩

/-- Claim C8, amended: a later Record at the same timestamp key
overwrites the earlier event — after Record(t1,e1), Record(t1,e2) the
store holds exactly e2 at bucket t1 for every t1 — and for every t1 > 0,
DrainSince(0) then yields exactly e2 with new watermark t1. -/
theorem claim8_last_write_wins (t1 : Nat) (m1 m2 : APIMessage)
    (h : 0 < t1) :
    recordMention (recordMention [] t1 m1) t1 m2 = [(t1, m2)] ∧
    LastMentions 1 (recordMention (recordMention [] t1 m1) t1 m2) 0 =
      Except.ok ([m2], t1, []) := by
  have hq : recordMention (recordMention [] t1 m1) t1 m2 = [(t1, m2)] := by
    simp [recordMention]
  refine ⟨hq, ?_⟩
  rw [hq]
  simp [LastMentions, lastMentionsCore, h]

/-- Witness for claim C8's amended theorem at `t1 = 5`. -/
theorem claim8_last_write_wins_witness :
    recordMention (recordMention [] 5 msgA) 5 msgB = [(5, msgB)] ∧
    LastMentions 1 (recordMention (recordMention [] 5 msgA) 5 msgB) 0 =
      Except.ok ([msgB], 5, []) :=
  claim8_last_write_wins 5 msgA msgB (by decide)

/-- Claim C9: a webhook payload that decodes successfully but whose type
is not `"cast.created"` makes `WebhookMentionsHandler` return success
with the mention queue unchanged, and a payload that fails to decode is
reported as an error. -/
theorem claim9_non_cast_created_noop
    (decode : List Nat → Option castsWebhookRequest)
    (parseTime : String → Option Int) (username : String)
    (q : MentionQueue) (body : List Nat) :
    (∀ req, decode body = some req → req.reqType ≠ neynarCastCreatedType →
      WebhookMentionsHandler decode parseTime username q body =
        Except.ok q) ∧
    (decode body = none →
      WebhookMentionsHandler decode parseTime username q body =
        Except.error "error unmarshalling request body") := by
  constructor
  · intro req h hne
    simp [WebhookMentionsHandler, h, hne]
  · intro h
    simp [WebhookMentionsHandler, h]

/-- A concrete decoded webhook envelope whose type is not
`"cast.created"`. -/
def otherTypeReq : castsWebhookRequest :=
  { reqType := "user.updated"
    Data :=
      { Object := "cast", Text := "x", Hash := "0x", Author := { Fid := 1 }
        ParentAuthor := none, ParentHash := "", Embeds := []
        Timestamp := "t" } }

/-- Witness for claim C9 on a concrete non-cast payload and a concrete
decode failure, over a nonempty queue. -/
theorem claim9_non_cast_created_noop_witness :
    WebhookMentionsHandler (fun _ => some otherTypeReq) (fun _ => none)
        "bot" [(3, msgA)] [0] = Except.ok [(3, msgA)] ∧
    WebhookMentionsHandler (fun _ => none) (fun _ => none)
        "bot" [(3, msgA)] [0] =
      Except.error "error unmarshalling request body" :=
  ⟨(claim9_non_cast_created_noop (fun _ => some otherTypeReq)
      (fun _ => none) "bot" [(3, msgA)] [0]).1 otherTypeReq rfl (by decide),
   (claim9_non_cast_created_noop (fun _ => none)
      (fun _ => none) "bot" [(3, msgA)] [0]).2 rfl⟩

/-- When every attempt is answered with HTTP 429, the attempt loop runs
through its whole remaining budget and reports exhaustion. -/
theorem requestLoop_all_throttle (responses : Nat → AttemptResult)
    (h : ∀ i, isThrottle (responses i) = true) :
    ∀ (r attempt : Nat),
      requestLoop responses attempt r =
        (Except.error "error downloading json: exceeded retry limit", r) := by
  intro r
  induction r with
  | zero => intro attempt; rfl
  | succ r ih =>
    intro attempt
    cases hres : responses attempt with
    | transportError e =>
      have hthis := h attempt
      rw [hres] at hthis
      simp [isThrottle] at hthis
    | response status stl bl =>
      have hthis := h attempt
      rw [hres] at hthis
      have hst : status = 429 := by simpa [isThrottle] using hthis
      subst hst
      simp [requestLoop, hres, ih]

/-- Claim C4: when every response is an HTTP 429, `request` performs
exactly `maxRetries` (= 12) attempts and then returns the distinct
retry-budget-exhaustion error "exceeded retry limit". -/
theorem claim4_retry_budget_exhausted (responses : Nat → AttemptResult)
    (h : ∀ i, isThrottle (responses i) = true) :
    request responses =
      (Except.error "error downloading json: exceeded retry limit",
       maxRetries) :=
  requestLoop_all_throttle responses h maxRetries 0

/-- An environment answering every attempt with HTTP 429. -/
def throttleStream : Nat → AttemptResult :=
  fun _ => AttemptResult.response 429 "429 Too Many Requests" []

/-- Witness for claim C4 on the all-429 environment. -/
theorem claim4_retry_budget_exhausted_witness :
    request throttleStream =
      (Except.error "error downloading json: exceeded retry limit", 12) :=
  claim4_retry_budget_exhausted throttleStream (fun _ => rfl)

/-- Claim C5: a transport-level failure, and any response whose status is
neither 200 nor 429, make `request` return an error after exactly one
attempt, with no retry. -/
theorem claim5_terminal_failures_not_retried
    (responses : Nat → AttemptResult) (e st : String) (s : Nat)
    (b : List Nat) :
    (responses 0 = AttemptResult.transportError e →
      request responses =
        (Except.error ("error downloading json: " ++ e), 1)) ∧
    (responses 0 = AttemptResult.response s st b → s ≠ 429 → s ≠ 200 →
      request responses =
        (Except.error ("error downloading json: " ++ st), 1)) := by
  constructor
  · intro h
    show requestLoop responses 0 maxRetries = _
    rw [show maxRetries = 11 + 1 from rfl]
    simp [requestLoop, h]
  · intro h h429 h200
    show requestLoop responses 0 maxRetries = _
    rw [show maxRetries = 11 + 1 from rfl]
    simp [requestLoop, h, h429, h200]

/-- Witness for claim C5: a concrete transport failure and a concrete
404 response each terminate after one attempt. -/
theorem claim5_terminal_failures_not_retried_witness :
    request (fun _ => AttemptResult.transportError "boom") =
      (Except.error "error downloading json: boom", 1) ∧
    request (fun _ => AttemptResult.response 404 "404 Not Found" []) =
      (Except.error "error downloading json: 404 Not Found", 1) :=
  ⟨(claim5_terminal_failures_not_retried
      (fun _ => AttemptResult.transportError "boom") "boom" "" 0 []).1 rfl,
   (claim5_terminal_failures_not_retried
      (fun _ => AttemptResult.response 404 "404 Not Found" []) "" "404 Not Found"
      404 []).2 rfl (by decide) (by decide)⟩

/-- When the first `k` attempts are throttled and attempt `k` succeeds,
the attempt loop returns the success body after `k + 1` attempts. -/
theorem requestLoop_throttle_then_ok (responses : Nat → AttemptResult)
    (st : String) (b : List Nat) :
    ∀ (k attempt r : Nat), k < r →
      (∀ i, i < k → isThrottle (responses (attempt + i)) = true) →
      responses (attempt + k) = AttemptResult.response 200 st b →
      requestLoop responses attempt r = (Except.ok b, k + 1) := by
  intro k
  induction k with
  | zero =>
    intro attempt r hr h429 h200
    obtain ⟨r', rfl⟩ : ∃ r', r = r' + 1 := ⟨r - 1, by omega⟩
    rw [Nat.add_zero] at h200
    simp [requestLoop, h200]
  | succ k ih =>
    intro attempt r hr h429 h200
    obtain ⟨r', rfl⟩ : ∃ r', r = r' + 1 := ⟨r - 1, by omega⟩
    have h0 := h429 0 (Nat.succ_pos k)
    rw [Nat.add_zero] at h0
    cases hres : responses attempt with
    | transportError e => rw [hres] at h0; simp [isThrottle] at h0
    | response status stl bl =>
      rw [hres] at h0
      have hst : status = 429 := by simpa [isThrottle] using h0
      subst hst
      have hrec : requestLoop responses (attempt + 1) r' =
          (Except.ok b, k + 1) := by
        apply ih (attempt + 1) r' (by omega)
        · intro i hi
          have hsh : attempt + 1 + i = attempt + (i + 1) := by omega
          rw [hsh]
          exact h429 (i + 1) (by omega)
        · have hsh : attempt + 1 + k = attempt + (k + 1) := by omega
          rw [hsh]
          exact h200
      simp [requestLoop, hres, hrec]

/-- Claim C6: when fewer than `maxRetries` leading attempts are answered
429 and the next attempt is answered 200, `request` returns the body of
the 200 response (after those throttled attempts plus one). -/
theorem claim6_success_after_throttles (responses : Nat → AttemptResult)
    (k : Nat) (st : String) (b : List Nat) (hk : k < maxRetries)
    (h429 : ∀ i, i < k → isThrottle (responses i) = true)
    (h200 : responses k = AttemptResult.response 200 st b) :
    request responses = (Except.ok b, k + 1) := by
  apply requestLoop_throttle_then_ok responses st b k 0 maxRetries hk
  · intro i hi
    simpa using h429 i hi
  · simpa using h200

/-- An environment answering the first three attempts with 429 and every
later one with 200. -/
def mixStream : Nat → AttemptResult := fun i =>
  if i < 3 then AttemptResult.response 429 "429 Too Many Requests" []
  else AttemptResult.response 200 "200 OK" [7]

/-- Witness for claim C6 on three 429s followed by a 200. -/
theorem claim6_success_after_throttles_witness :
    request mixStream = (Except.ok [7], 4) := by
  apply claim6_success_after_throttles mixStream 3 "200 OK" [7] (by decide)
  · intro i hi
    interval_cases i <;> rfl
  · rfl

/-- Splitting `inFlight` around one distinguished thread. -/
theorem inFlight_append (l r : List ThreadPhase) (p : ThreadPhase) :
    inFlight (l ++ p :: r) =
      inFlight l + (if p = ThreadPhase.inCall then 1 else 0) + inFlight r := by
  by_cases hp : p = ThreadPhase.inCall
  · simp [inFlight, List.countP_append, List.countP_cons, hp]
    omega
  · simp [inFlight, List.countP_append, List.countP_cons, hp]

/-- Every step of the semaphore discipline preserves the bound of
`maxConcurrentRequests` threads inside the network call. -/
theorem semStep_inFlight_le {s t : List ThreadPhase} (h : SemStep s t)
    (hs : inFlight s ≤ maxConcurrentRequests) :
    inFlight t ≤ maxConcurrentRequests := by
  cases h with
  | acquire l r hlt =>
    rw [inFlight_append] at hlt ⊢
    simp [maxConcurrentRequests] at hlt ⊢
    omega
  | finish l r =>
    rw [inFlight_append] at hs ⊢
    simp [maxConcurrentRequests] at hs ⊢
    omega
  | throttle l r =>
    rw [inFlight_append] at hs ⊢
    simp [maxConcurrentRequests] at hs ⊢
    omega
  | wake l r =>
    rw [inFlight_append] at hs ⊢
    simp [maxConcurrentRequests] at hs ⊢
    omega

/-- Claim C7: in every state reachable from an initial state in which no
goroutine holds a permit, at most `maxConcurrentRequests` (= 2) network
calls are in flight; the model releases the permit right after the call,
before the retry decision and before any backoff sleep. -/
theorem claim7_at_most_two_in_flight (s0 s : List ThreadPhase)
    (hinit : ∀ p ∈ s0, p = ThreadPhase.beforeAcquire)
    (hreach : Relation.ReflTransGen SemStep s0 s) :
    inFlight s ≤ maxConcurrentRequests := by
  induction hreach with
  | refl =>
    have h0 : inFlight s0 = 0 := by
      simp only [inFlight]
      rw [List.countP_eq_zero]
      intro a ha
      rw [hinit a ha]
      simp
    rw [h0]
    exact Nat.zero_le _
  | tail _ hstep ih => exact semStep_inFlight_le hstep ih

/-- Witness for claim C7: three goroutines, two of which have acquired
their permits and entered the call, stay within the bound. -/
theorem claim7_at_most_two_in_flight_witness :
    inFlight [ThreadPhase.inCall, ThreadPhase.inCall,
      ThreadPhase.beforeAcquire] ≤ maxConcurrentRequests := by
  apply claim7_at_most_two_in_flight
      [ThreadPhase.beforeAcquire, ThreadPhase.beforeAcquire,
        ThreadPhase.beforeAcquire]
  · intro p hp
    simp at hp
    exact hp
  · have step1 : SemStep
        [ThreadPhase.beforeAcquire, ThreadPhase.beforeAcquire,
          ThreadPhase.beforeAcquire]
        [ThreadPhase.inCall, ThreadPhase.beforeAcquire,
          ThreadPhase.beforeAcquire] :=
      SemStep.acquire []
        [ThreadPhase.beforeAcquire, ThreadPhase.beforeAcquire] (by decide)
    have step2 : SemStep
        [ThreadPhase.inCall, ThreadPhase.beforeAcquire,
          ThreadPhase.beforeAcquire]
        [ThreadPhase.inCall, ThreadPhase.inCall, ThreadPhase.beforeAcquire] :=
      SemStep.acquire [ThreadPhase.inCall]
        [ThreadPhase.beforeAcquire] (by decide)
    exact Relation.ReflTransGen.tail
      (Relation.ReflTransGen.tail Relation.ReflTransGen.refl step1) step2

/-- Claim C10: with a farcaster user set, every content whose UTF-8 byte
length exceeds `MaxCastBytes` (= 350) makes both `Publish` and `Reply`
return the "content is too long" error before reaching the network
request step. -/
theorem claim10_too_long_content_rejected (fid : Nat)
    (signerUUID targetHash content : String) (embeds : List String)
    (hfid : fid ≠ 0) (hlen : MaxCastBytes < goUtf8Len content) :
    Publish fid signerUUID content embeds =
      Except.error "content is too long" ∧
    Reply fid signerUUID targetHash content embeds =
      Except.error "content is too long" := by
  constructor <;> simp [Publish, Reply, hfid, hlen]

/-- A 351-byte content string. -/
def longContent : String := String.mk (List.replicate 351 'a')

set_option maxRecDepth 8000 in
/-- Witness for claim C10 on a 351-byte content string. -/
theorem claim10_too_long_content_rejected_witness :
    Publish 3 "uuid" longContent [] = Except.error "content is too long" ∧
    Reply 3 "uuid" "0xparent" longContent [] =
      Except.error "content is too long" :=
  claim10_too_long_content_rejected 3 "uuid" "0xparent" longContent []
    (by decide) (by decide)

end Neynar
